import Mathlib

/-!
Verification of the indexed-membership equality gadget of
`src/zk2/hash_preimage.circom` (template `HashListCheckInternal(n)`,
instantiated as `Main(10)`), together with the two driver input builders
`get_input_with_others.js` and `get_input.js`.

The circuit is shallowly embedded over an arbitrary decidable field `F`
(the concrete deployment uses the BN254 scalar field, a prime far larger
than the list size 10; theorems that need it take the hypothesis that the
naturals `0..9` embed injectively into `F`).  The Poseidon hash is an
external primitive and is modelled as an opaque function `H : F → F`.

Two semantic levels are embedded:
* `HashListCheckConstraints` — the constraint set of the gadget: the
  predicate on a full signal assignment (`Witness`) stating that every
  constraint emitted by the template is satisfied;
* `synthesize` — the deterministic witness computation that the circom
  witness generator performs for the `<==` assignments, followed by the
  checks of the two `===` assertions (line 39 `sumSel[n] === 1` first,
  then line 48 `hr === selectedHash[n]`), failing with
  `UnsatisfiableWitness` exactly when an assertion does not hold.
-/

namespace HashPreimage

/-- Modelled from the spec: the inverse hint of circomlib's `IsZero`
gadget (`comparators.circom` is included from `node_modules` and is not
part of `src/`).  The witness generator assigns
`inv <-- in != 0 ? 1/in : 0`. -/
def isZeroInv {F : Type} [Field F] [DecidableEq F] (z : F) : F :=
  if z = 0 then 0 else z⁻¹

/-- Modelled from the spec: the output wire of circomlib's `IsZero`,
computed by the witness generator as `out <== -in*inv + 1`. -/
def isZeroOut {F : Type} [Field F] [DecidableEq F] (z : F) : F :=
  -z * isZeroInv z + 1

/-- Modelled from the spec: the two constraints of circomlib's `IsZero`
on input `z`, hint `inv` and output `out`:
`out === -in*inv + 1` and `in*out === 0`. -/
def IsZeroConstraints {F : Type} [Field F] (z inv out : F) : Prop :=
  out = -z * inv + 1 ∧ z * out = 0

instance {F : Type} [Field F] [DecidableEq F] (z inv out : F) :
    Decidable (IsZeroConstraints z inv out) :=
  inferInstanceAs (Decidable (out = -z * inv + 1 ∧ z * out = 0))

/-- Modelled from the spec: the inverse hint of circomlib's `IsEqual`,
which feeds `in[1] - in[0]` into an `IsZero` sub-component. -/
def isEqualInv {F : Type} [Field F] [DecidableEq F] (a b : F) : F :=
  isZeroInv (b - a)

/-- Modelled from the spec: the output wire of circomlib's `IsEqual`
on inputs `a = in[0]` and `b = in[1]`. -/
def isEqualOut {F : Type} [Field F] [DecidableEq F] (a b : F) : F :=
  isZeroOut (b - a)

/-- Modelled from the spec: the constraints of circomlib's `IsEqual` on
inputs `a = in[0]`, `b = in[1]`, hint `inv` and output `out`. -/
def IsEqualConstraints {F : Type} [Field F] (a b inv out : F) : Prop :=
  IsZeroConstraints (b - a) inv out

instance {F : Type} [Field F] [DecidableEq F] (a b inv out : F) :
    Decidable (IsEqualConstraints a b inv out) :=
  inferInstanceAs (Decidable (IsZeroConstraints (b - a) inv out))

/-- A full assignment to the signals of `HashListCheckInternal(n)`
(`src/zk2/hash_preimage.circom`, lines 6-51): private inputs `r` and `j`,
the public list `hashes`, the hash wire `hr`, the per-position `IsEqual`
inverse hints `inv` and outputs `sel`, the running selector sum `sumSel`,
the running selection sum `selectedHash`, and the output `ok`.
Array signals are total functions on `Nat`; only indices below `n`
(respectively `n + 1` for the accumulators) are constrained. -/
structure Witness (F : Type) where
  r : F
  j : F
  hashes : List F
  hr : F
  inv : Nat → F
  sel : Nat → F
  sumSel : Nat → F
  selectedHash : Nat → F
  ok : F

/-- The constraint set of `HashListCheckInternal(n)`
(`src/zk2/hash_preimage.circom`, lines 6-51), with the Poseidon component
abstracted as the opaque hash `H`.  The conjuncts are, in source order:
`hr <== Poseidon(r)` (lines 17-20); the `IsEqual` sub-circuits
`eq[i].in[0] <== j`, `eq[i].in[1] <== i`, `sel[i] <== eq[i].out`
(lines 26-31); `sumSel[0] <== 0` and `sumSel[i+1] <== sumSel[i] + sel[i]`
(lines 34-38); `sumSel[n] === 1` (line 39); `selectedHash[0] <== 0` and
`selectedHash[i+1] <== selectedHash[i] + sel[i] * hashes[i]`
(lines 42-46); `hr === selectedHash[n]` (line 48); `ok <== 1`
(line 50). -/
def HashListCheckConstraints {F : Type} [Field F] (H : F → F) (n : Nat)
    (w : Witness F) : Prop :=
  w.hr = H w.r ∧
  (∀ i, i < n → IsEqualConstraints w.j (i : F) (w.inv i) (w.sel i)) ∧
  w.sumSel 0 = 0 ∧
  (∀ i, i < n → w.sumSel (i + 1) = w.sumSel i + w.sel i) ∧
  w.sumSel n = 1 ∧
  w.selectedHash 0 = 0 ∧
  (∀ i, i < n →
    w.selectedHash (i + 1) = w.selectedHash i + w.sel i * w.hashes.getD i 0) ∧
  w.hr = w.selectedHash n ∧
  w.ok = 1

instance {F : Type} [Field F] [DecidableEq F] (H : F → F) (n : Nat)
    (w : Witness F) : Decidable (HashListCheckConstraints H n w) :=
  inferInstanceAs (Decidable
    (w.hr = H w.r ∧
     (∀ i, i < n → IsEqualConstraints w.j (i : F) (w.inv i) (w.sel i)) ∧
     w.sumSel 0 = 0 ∧
     (∀ i, i < n → w.sumSel (i + 1) = w.sumSel i + w.sel i) ∧
     w.sumSel n = 1 ∧
     w.selectedHash 0 = 0 ∧
     (∀ i, i < n →
       w.selectedHash (i + 1) = w.selectedHash i + w.sel i * w.hashes.getD i 0) ∧
     w.hr = w.selectedHash n ∧
     w.ok = 1))

/-- The selector value `sel[i]` computed by the witness generator:
the output of `IsEqual` applied to `j` and the constant `i`
(`src/zk2/hash_preimage.circom`, lines 26-31). -/
def synthSel {F : Type} [Field F] [DecidableEq F] (j : F) (i : Nat) : F :=
  isEqualOut j (i : F)

/-- The running selector sum `sumSel` computed by the witness generator
(`src/zk2/hash_preimage.circom`, lines 34-38). -/
def synthSumSel {F : Type} [Field F] [DecidableEq F] (j : F) : Nat → F
  | 0 => 0
  | i + 1 => synthSumSel j i + synthSel j i

/-- The running selection sum `selectedHash` computed by the witness
generator (`src/zk2/hash_preimage.circom`, lines 42-46). -/
def synthSelectedHash {F : Type} [Field F] [DecidableEq F] (j : F)
    (hashes : List F) : Nat → F
  | 0 => 0
  | i + 1 => synthSelectedHash j hashes i + synthSel j i * hashes.getD i 0

/-- The full signal assignment computed by the witness generator from the
inputs `r`, `j` and `hashes`: every `<==` wire of
`HashListCheckInternal` evaluated in source order. -/
def synthWitness {F : Type} [Field F] [DecidableEq F] (H : F → F)
    (r j : F) (hashes : List F) : Witness F where
  r := r
  j := j
  hashes := hashes
  hr := H r
  inv := fun i => isEqualInv j (i : F)
  sel := synthSel j
  sumSel := synthSumSel j
  selectedHash := synthSelectedHash j hashes
  ok := 1

/-- Error taxonomy of witness synthesis (spec section 7): a public list
of the wrong shape, or an assignment that violates one of the `===`
assertions. -/
inductive SynthError where
  | ShapeMismatch
  | UnsatisfiableWitness
deriving DecidableEq

/-- Witness synthesis for `HashListCheckInternal(n)`: compute every
`<==` wire, then check the two `===` assertions in source order
(line 39 `sumSel[n] === 1`, then line 48 `hr === selectedHash[n]`),
failing with `UnsatisfiableWitness` on the first violated assertion. -/
def synthesize {F : Type} [Field F] [DecidableEq F] (H : F → F) (n : Nat)
    (r j : F) (hashes : List F) : Except SynthError (Witness F) :=
  let w := synthWitness H r j hashes
  if w.sumSel n ≠ 1 then .error .UnsatisfiableWitness
  else if w.hr ≠ w.selectedHash n then .error .UnsatisfiableWitness
  else .ok w

/-- The JSON object written by the input builders: private inputs `r`
and `j` and the public list `hashes`. -/
structure CircuitInput (F : Type) where
  r : F
  j : F
  hashes : List F
deriving DecidableEq

/-- Model of `main` in `src/zk2/get_input_with_others.js` after JSON
parsing: the parsed others file is a list of field elements (a JSON
value that is not an array is outside the model), and the builder
checks `others.length !== 9` (lines 28-30) before the Poseidon hash of
the secret is ever computed, throwing the error the spec names
`ShapeMismatch`; on success it emits the ten-element list
`[...others, Poseidon(secret)]` with `j = 9`. -/
def getInputWithOthers {F : Type} [Field F] [DecidableEq F] (H : F → F)
    (secret : F) (others : List F) : Except SynthError (CircuitInput F) :=
  if others.length ≠ 9 then .error .ShapeMismatch
  else .ok { r := secret, j := 9, hashes := others ++ [H secret] }

/-- Model of `main` in `get_input.js` (embedded in `src/zk2/README.md`):
`j` is parsed as an integer, range-checked by
`if (j < 0 || j > 9) throw new Error("j must be 0–9")` before the
Poseidon hash is computed; on success it emits ten zero entries with
position `j` replaced by `Poseidon(r)`. -/
def getInput {F : Type} [Field F] [DecidableEq F] (H : F → F) (r : F)
    (j : Int) : Except String (CircuitInput F) :=
  if j < 0 ∨ 9 < j then .error "j must be 0–9"
  else .ok { r := r, j := (j.toNat : F),
             hashes := (List.replicate 10 (0 : F)).set j.toNat (H r) }

/-- A concrete, fully explicit assignment over `ZMod 11` for the
stand-in hash `H x = x * x`: `r = 42`, `j = 3`, and the public list has
`H 42 = 4` at position `3` and zeros elsewhere (spec scenario 1).  The
`inv` entries are the literal field inverses of `i - 3` modulo `11`
(and `0` at the matching position), exactly the hints the witness
generator would produce. -/
instance : Fact (Nat.Prime 11) := ⟨by norm_num⟩

def exampleWitness : Witness (ZMod 11) where
  r := 42
  j := 3
  hashes := [0, 0, 0, 4, 0, 0, 0, 0, 0, 0]
  hr := 4
  inv := fun i => ([7, 5, 10, 0, 1, 6, 4, 3, 9, 2] : List (ZMod 11)).getD i 0
  sel := fun i => ([0, 0, 0, 1, 0, 0, 0, 0, 0, 0] : List (ZMod 11)).getD i 0
  sumSel := fun i => if i < 4 then 0 else 1
  selectedHash := fun i => if i < 4 then 0 else 4
  ok := 1

section Lemmas

variable {F : Type} [Field F] [DecidableEq F]

theorem isZeroOut_eq (z : F) : isZeroOut z = if z = 0 then 1 else 0 := by
  unfold isZeroOut isZeroInv
  by_cases h : z = 0
  · simp [h]
  · rw [if_neg h, if_neg h, neg_mul, mul_inv_cancel₀ h, neg_add_cancel]

theorem synthSel_eq (j : F) (i : Nat) :
    synthSel j i = if (i : F) = j then 1 else 0 := by
  unfold synthSel isEqualOut
  rw [isZeroOut_eq]
  by_cases h : (i : F) = j
  · rw [if_pos (by rw [h, sub_self]), if_pos h]
  · rw [if_neg (fun hs => h (sub_eq_zero.mp hs)), if_neg h]

theorem isZero_synth_sat (z : F) :
    IsZeroConstraints z (isZeroInv z) (isZeroOut z) := by
  refine ⟨rfl, ?_⟩
  rw [isZeroOut_eq]
  by_cases h : z = 0
  · rw [h, zero_mul]
  · rw [if_neg h, mul_zero]

theorem isEqualConstraints_out {a b inv out : F}
    (h : IsEqualConstraints a b inv out) :
    out = if b = a then 1 else 0 := by
  obtain ⟨h1, h2⟩ := h
  by_cases hz : b - a = 0
  · rw [if_pos (sub_eq_zero.mp hz), h1, hz, neg_zero, zero_mul, zero_add]
  · rcases mul_eq_zero.mp h2 with hc | hc
    · exact absurd hc hz
    · rw [if_neg (fun he => hz (sub_eq_zero.mpr he)), hc]

theorem synthSumSel_eq_sum (j : F) (n : Nat) :
    synthSumSel j n = ∑ i in Finset.range n, if (i : F) = j then 1 else 0 := by
  induction n with
  | zero => simp [synthSumSel]
  | succ k ih =>
      rw [Finset.sum_range_succ, ← ih, synthSumSel, synthSel_eq]

theorem synthSelectedHash_eq_sum (j : F) (hashes : List F) (n : Nat) :
    synthSelectedHash j hashes n =
      ∑ i in Finset.range n,
        (if (i : F) = j then 1 else 0) * hashes.getD i 0 := by
  induction n with
  | zero => simp [synthSelectedHash]
  | succ k ih =>
      rw [Finset.sum_range_succ, ← ih, synthSelectedHash, synthSel_eq]

theorem synthSumSel_of_no_match {j : F} {n : Nat}
    (h : ∀ i, i < n → (i : F) ≠ j) : synthSumSel j n = 0 := by
  rw [synthSumSel_eq_sum]
  exact Finset.sum_eq_zero fun i hi =>
    if_neg (h i (Finset.mem_range.mp hi))

theorem synthSumSel_of_match {n jn : Nat}
    (hd : ∀ a, a < n → ∀ b, b < n → ((a : F) = (b : F)) → a = b)
    (hj : jn < n) : synthSumSel ((jn : Nat) : F) n = 1 := by
  rw [synthSumSel_eq_sum]
  have hcongr : ∀ i ∈ Finset.range n,
      (if (i : F) = ((jn : Nat) : F) then (1 : F) else 0) =
        if i = jn then 1 else 0 := by
    intro i hi
    by_cases h : i = jn
    · rw [if_pos (by rw [h]), if_pos h]
    · rw [if_neg (fun hc => h (hd i (Finset.mem_range.mp hi) jn hj hc)), if_neg h]
  rw [Finset.sum_congr rfl hcongr]
  simp [Finset.sum_ite_eq', hj]

theorem synthSelectedHash_of_match {n jn : Nat} {hashes : List F}
    (hd : ∀ a, a < n → ∀ b, b < n → ((a : F) = (b : F)) → a = b)
    (hj : jn < n) :
    synthSelectedHash ((jn : Nat) : F) hashes n = hashes.getD jn 0 := by
  rw [synthSelectedHash_eq_sum]
  have hcongr : ∀ i ∈ Finset.range n,
      (if (i : F) = ((jn : Nat) : F) then (1 : F) else 0) * hashes.getD i 0 =
        if i = jn then hashes.getD i 0 else 0 := by
    intro i hi
    by_cases h : i = jn
    · rw [if_pos (by rw [h]), if_pos h, one_mul]
    · rw [if_neg (fun hc => h (hd i (Finset.mem_range.mp hi) jn hj hc)), if_neg h,
        zero_mul]
  rw [Finset.sum_congr rfl hcongr, Finset.sum_ite_eq' (Finset.range n) jn]
  simp [hj]

theorem sel_forced {H : F → F} {n : Nat} {w : Witness F}
    (hsat : HashListCheckConstraints H n w) :
    ∀ i, i < n → w.sel i = if (i : F) = w.j then 1 else 0 := by
  intro i hi
  exact isEqualConstraints_out (hsat.2.1 i hi)

theorem sumSel_forced {H : F → F} {n : Nat} {w : Witness F}
    (hsat : HashListCheckConstraints H n w) :
    ∀ i, i ≤ n → w.sumSel i = synthSumSel w.j i := by
  intro i
  induction i with
  | zero => intro _; rw [hsat.2.2.1]; rfl
  | succ k ih =>
      intro hk
      have hkn : k < n := Nat.lt_of_succ_le hk
      rw [hsat.2.2.2.1 k hkn, ih (Nat.le_of_lt hkn), synthSumSel,
        sel_forced hsat k hkn, synthSel_eq]

theorem selectedHash_forced {H : F → F} {n : Nat} {w : Witness F}
    (hsat : HashListCheckConstraints H n w) :
    ∀ i, i ≤ n → w.selectedHash i = synthSelectedHash w.j w.hashes i := by
  intro i
  induction i with
  | zero => intro _; rw [hsat.2.2.2.2.2.1]; rfl
  | succ k ih =>
      intro hk
      have hkn : k < n := Nat.lt_of_succ_le hk
      rw [hsat.2.2.2.2.2.2.1 k hkn, ih (Nat.le_of_lt hkn), synthSelectedHash,
        sel_forced hsat k hkn, synthSel_eq]

theorem synthWitness_sat {H : F → F} {n : Nat} {r j : F} {hashes : List F}
    (h1 : synthSumSel j n = 1)
    (h2 : H r = synthSelectedHash j hashes n) :
    HashListCheckConstraints H n (synthWitness H r j hashes) := by
  refine ⟨rfl, ?_, rfl, fun i _ => rfl, h1, rfl, fun i _ => rfl, h2, rfl⟩
  intro i _
  exact isZero_synth_sat ((i : F) - j)

theorem synthesize_ok {H : F → F} {n : Nat} {r j : F} {hashes : List F}
    (h1 : synthSumSel j n = 1)
    (h2 : H r = synthSelectedHash j hashes n) :
    synthesize H n r j hashes = .ok (synthWitness H r j hashes) := by
  unfold synthesize
  rw [if_neg (by simp [synthWitness, h1]), if_neg (by simp [synthWitness, h2])]

omit [DecidableEq F] in
theorem selectedHash_of_one_hot {n jn : Nat} {w : Witness F}
    (hjn : jn < n)
    (h0 : w.selectedHash 0 = 0)
    (hrec : ∀ i, i < n →
      w.selectedHash (i + 1) = w.selectedHash i + w.sel i * w.hashes.getD i 0)
    (h1 : w.sel jn = 1)
    (hz : ∀ i, i < n → i ≠ jn → w.sel i = 0) :
    w.selectedHash n = w.hashes.getD jn 0 := by
  have key : ∀ m, m ≤ n →
      w.selectedHash m = if jn < m then w.hashes.getD jn 0 else 0 := by
    intro m
    induction m with
    | zero => intro _; rw [h0, if_neg (Nat.not_lt_zero jn)]
    | succ k ih =>
        intro hk
        have hkn : k < n := Nat.lt_of_succ_le hk
        rw [hrec k hkn, ih (Nat.le_of_lt hkn)]
        by_cases hkj : k = jn
        · subst hkj
          rw [h1, if_neg (Nat.lt_irrefl k), if_pos (Nat.lt_succ_self k),
            zero_add, one_mul]
        · rw [hz k hkn hkj, zero_mul, add_zero]
          have hiff : jn < k + 1 ↔ jn < k := by
            constructor
            · intro h
              rcases Nat.lt_succ_iff_lt_or_eq.mp h with h | h
              · exact h
              · exact absurd h.symm hkj
            · exact fun h => Nat.lt_succ_of_lt h
          by_cases hlt : jn < k
          · rw [if_pos hlt, if_pos (hiff.mpr hlt)]
          · rw [if_neg hlt, if_neg (fun hc => hlt (hiff.mp hc))]
  rw [key n (Nat.le_refl n), if_pos hjn]

end Lemmas

/-- C1. Completeness: for every public list of exactly `n = 10` field
elements and every index `j` in `[0, 9]`, if `H(secret) == list[j]`
then witness synthesis succeeds, the computed assignment satisfies every
constraint of the gadget, and the public output equals `1`.  (The
hypothesis `hd` states that `0..9` are pairwise distinct as field
elements, which holds in the BN254 scalar field of the deployment.) -/
theorem hash_list_completeness {F : Type} [Field F] [DecidableEq F]
    (H : F → F) (hashes : List F) (r : F) (jn : Nat)
    (_hlen : hashes.length = 10) (hj : jn < 10)
    (hd : ∀ a : Nat, a < 10 → ∀ b : Nat, b < 10 → ((a : F) = (b : F)) → a = b)
    (hmatch : H r = hashes.getD jn 0) :
    synthesize H 10 r (jn : F) hashes =
      .ok (synthWitness H r (jn : F) hashes) ∧
    HashListCheckConstraints H 10 (synthWitness H r (jn : F) hashes) ∧
    (synthWitness H r (jn : F) hashes).ok = 1 := by
  have h1 : synthSumSel ((jn : Nat) : F) 10 = 1 := synthSumSel_of_match hd hj
  have h2 : H r = synthSelectedHash ((jn : Nat) : F) hashes 10 := by
    rw [synthSelectedHash_of_match hd hj, hmatch]
  exact ⟨synthesize_ok h1 h2, synthWitness_sat h1 h2, rfl⟩

/-- Witness for C1, spec scenario 1 over `ZMod 11` with the stand-in
hash `H x = x * x`: the list has `H 42` at position `3` and zeros
elsewhere, and synthesis with `secret = 42, index = 3` succeeds with
output `1`. -/
theorem hash_list_completeness_witness :
    synthesize (F := ZMod 11) (fun x => x * x) 10 42 ((3 : Nat) : ZMod 11)
        [0, 0, 0, 4, 0, 0, 0, 0, 0, 0] =
      .ok (synthWitness (fun x => x * x) 42 ((3 : Nat) : ZMod 11)
        [0, 0, 0, 4, 0, 0, 0, 0, 0, 0]) ∧
    HashListCheckConstraints (fun x => x * x) 10
      (synthWitness (fun x => x * x) 42 ((3 : Nat) : ZMod 11)
        [0, 0, 0, 4, 0, 0, 0, 0, 0, 0]) ∧
    (synthWitness (fun x => x * x) 42 ((3 : Nat) : ZMod 11)
        [0, 0, 0, 4, 0, 0, 0, 0, 0, 0]).ok = 1 :=
  hash_list_completeness (fun x => x * x) [0, 0, 0, 4, 0, 0, 0, 0, 0, 0]
    42 3 (by decide) (by decide) (by decide) (by decide)

/-- C2. Out-of-range rejection: for every field value of the index `j`
that is not one of the integers `0..9`, every selector entry `sel[i]`
computed by the witness generator is `0`, the selector sum is `0`,
witness synthesis fails with `UnsatisfiableWitness` (the constraint
`sumSel[n] === 1` is violated), and no assignment whatsoever with such
an index value satisfies the gadget's constraints — so no field value of
`j` outside `0..n-1` can ever yield selector-sum `1`. -/
theorem out_of_range_rejection {F : Type} [Field F] [DecidableEq F]
    (j : F) (hj : ∀ i : Nat, i < 10 → (i : F) ≠ j) :
    (∀ i : Nat, i < 10 → synthSel j i = 0) ∧
    synthSumSel j 10 = 0 ∧
    (∀ (H : F → F) (r : F) (hashes : List F),
      synthesize H 10 r j hashes = .error .UnsatisfiableWitness) ∧
    (∀ (H : F → F) (w : Witness F), w.j = j →
      ¬ HashListCheckConstraints H 10 w) := by
  have hsum : synthSumSel j 10 = 0 := synthSumSel_of_no_match hj
  refine ⟨?_, hsum, ?_, ?_⟩
  · intro i hi
    rw [synthSel_eq, if_neg (hj i hi)]
  · intro H r hashes
    unfold synthesize
    rw [if_pos ?_]
    show ¬ synthSumSel j 10 = 1
    rw [hsum]
    exact zero_ne_one
  · intro H w hwj hsat
    have h10 : w.sumSel 10 = synthSumSel w.j 10 :=
      sumSel_forced hsat 10 (Nat.le_refl 10)
    rw [hsat.2.2.2.2.1, hwj, hsum] at h10
    exact one_ne_zero h10

/-- Witness for C2 over `ZMod 11`: the field value `10` is not the image
of any integer `0..9`, so synthesis at index `10` is rejected. -/
theorem out_of_range_rejection_witness :
    synthesize (F := ZMod 11) (fun x => x * x) 10 42 10
        [0, 0, 0, 4, 0, 0, 0, 0, 0, 0] =
      .error .UnsatisfiableWitness :=
  (out_of_range_rejection (10 : ZMod 11) (by decide)).2.2.1
    (fun x => x * x) 42 [0, 0, 0, 4, 0, 0, 0, 0, 0, 0]

/-- C3. Soundness under tampering: for every index `j` in `[0, 9]`, if
`H(secret) != list[j]`, then witness synthesis fails with
`UnsatisfiableWitness`: the selector-sum assertion passes but the
assertion `hr === selectedHash[n]`, that the hash of the secret equals
the selected list entry, is violated. -/
theorem soundness_under_tampering {F : Type} [Field F] [DecidableEq F]
    (H : F → F) (hashes : List F) (r : F) (jn : Nat)
    (_hlen : hashes.length = 10) (hj : jn < 10)
    (hd : ∀ a : Nat, a < 10 → ∀ b : Nat, b < 10 → ((a : F) = (b : F)) → a = b)
    (hne : H r ≠ hashes.getD jn 0) :
    synthesize H 10 r (jn : F) hashes = .error .UnsatisfiableWitness := by
  unfold synthesize
  rw [if_neg ?_, if_pos ?_]
  · show ¬ H r = synthSelectedHash ((jn : Nat) : F) hashes 10
    rw [synthSelectedHash_of_match hd hj]
    exact hne
  · show ¬¬ synthSumSel ((jn : Nat) : F) 10 = 1
    rw [synthSumSel_of_match hd hj]
    exact fun hc => hc rfl

/-- Witness for C3, spec scenario 3 over `ZMod 11` with the stand-in
hash `H x = x * x`: `secret = 43` does not hash to the entry at
index `3`, so synthesis fails. -/
theorem soundness_under_tampering_witness :
    synthesize (F := ZMod 11) (fun x => x * x) 10 43 ((3 : Nat) : ZMod 11)
        [0, 0, 0, 4, 0, 0, 0, 0, 0, 0] =
      .error .UnsatisfiableWitness :=
  soundness_under_tampering (fun x => x * x) [0, 0, 0, 4, 0, 0, 0, 0, 0, 0]
    43 3 (by decide) (by decide) (by decide) (by decide)

/-- C4. One-hot invariant: every assignment satisfying all of the
gadget's constraints has each of the `n = 10` selector entries equal to
`0` or `1`, and exactly one entry equal to `1` — the one at the claimed
index (the position whose field image is `j`) — while all others are
`0`. -/
theorem one_hot_invariant {F : Type} [Field F] [DecidableEq F]
    (H : F → F) (w : Witness F)
    (hd : ∀ a : Nat, a < 10 → ∀ b : Nat, b < 10 → ((a : F) = (b : F)) → a = b)
    (hsat : HashListCheckConstraints H 10 w) :
    (∀ i, i < 10 → w.sel i = 0 ∨ w.sel i = 1) ∧
    (∃ jn, jn < 10 ∧ ((jn : Nat) : F) = w.j ∧ w.sel jn = 1 ∧
      ∀ i, i < 10 → i ≠ jn → w.sel i = 0) := by
  constructor
  · intro i hi
    rw [sel_forced hsat i hi]
    by_cases h : (i : F) = w.j
    · exact Or.inr (if_pos h)
    · exact Or.inl (if_neg h)
  · have hex : ∃ jn, jn < 10 ∧ ((jn : Nat) : F) = w.j := by
      by_contra hno
      push_neg at hno
      have hzero : w.sumSel 10 = 0 := by
        rw [sumSel_forced hsat 10 (Nat.le_refl 10)]
        exact synthSumSel_of_no_match fun i hi => hno i hi
      rw [hsat.2.2.2.2.1] at hzero
      exact one_ne_zero hzero
    obtain ⟨jn, hjn, hje⟩ := hex
    refine ⟨jn, hjn, hje, ?_, ?_⟩
    · rw [sel_forced hsat jn hjn, if_pos hje]
    · intro i hi hne
      rw [sel_forced hsat i hi]
      refine if_neg fun hc => hne ?_
      exact hd i hi jn hjn (hc.trans hje.symm)

/-- Witness for C4: projection of the invariant to position `3` of the
explicit satisfying assignment `exampleWitness`. -/
theorem one_hot_invariant_witness :
    exampleWitness.sel 3 = 0 ∨ exampleWitness.sel 3 = 1 :=
  (one_hot_invariant (fun x => x * x) exampleWitness
    (by decide) (by decide)).1 3 (by decide)

/-- C5. Selection accumulator: in every assignment satisfying the
gadget's constraints the running sums obey `selectedHash[0] = 0` and
`selectedHash[i+1] = selectedHash[i] + sel[i] * hashes[i]`, and whenever
the selector vector is one-hot with the `1` at position `jn`, the final
accumulator `selectedHash[10]` equals `hashes[jn]` exactly. -/
theorem selection_accumulator {F : Type} [Field F] [DecidableEq F]
    (H : F → F) (w : Witness F) (jn : Nat)
    (hsat : HashListCheckConstraints H 10 w) (hjn : jn < 10)
    (hone : w.sel jn = 1 ∧ ∀ i, i < 10 → i ≠ jn → w.sel i = 0) :
    w.selectedHash 0 = 0 ∧
    (∀ i, i < 10 →
      w.selectedHash (i + 1) = w.selectedHash i + w.sel i * w.hashes.getD i 0) ∧
    w.selectedHash 10 = w.hashes.getD jn 0 :=
  ⟨hsat.2.2.2.2.2.1, hsat.2.2.2.2.2.2.1,
    selectedHash_of_one_hot hjn hsat.2.2.2.2.2.1 hsat.2.2.2.2.2.2.1
      hone.1 hone.2⟩

/-- Witness for C5: on the explicit satisfying assignment
`exampleWitness`, whose selector is one-hot at `3`, the final
accumulator equals the list entry at position `3`. -/
theorem selection_accumulator_witness :
    exampleWitness.selectedHash 10 = exampleWitness.hashes.getD 3 0 :=
  (selection_accumulator (fun x => x * x) exampleWitness 3
    (by decide) (by decide) (by decide)).2.2

/-- C6. Selector builder contract: in every assignment satisfying the
gadget's constraints, for each position `i` in `0..9` the selector value
`sel[i]` equals the output of the field equality-test gadget `IsEqual`
applied to `j` and the constant `i`, which is `1` if the claimed index
`j` equals `i` and `0` otherwise. -/
theorem selector_builder {F : Type} [Field F] [DecidableEq F]
    (H : F → F) (w : Witness F)
    (hsat : HashListCheckConstraints H 10 w) :
    ∀ i, i < 10 → w.sel i = isEqualOut w.j (i : F) ∧
      w.sel i = if w.j = (i : F) then 1 else 0 := by
  intro i hi
  have h := sel_forced hsat i hi
  have hswap : (if (i : F) = w.j then (1 : F) else 0) =
      if w.j = (i : F) then 1 else 0 := by
    by_cases hc : (i : F) = w.j
    · rw [if_pos hc, if_pos hc.symm]
    · rw [if_neg hc, if_neg fun he => hc he.symm]
  constructor
  · show w.sel i = synthSel w.j i
    rw [synthSel_eq, h]
  · rw [h, hswap]

/-- Witness for C6: projection to position `3` of the explicit
satisfying assignment `exampleWitness`. -/
theorem selector_builder_witness :
    exampleWitness.sel 3 =
      if exampleWitness.j = ((3 : Nat) : ZMod 11) then 1 else 0 :=
  ((selector_builder (fun x => x * x) exampleWitness (by decide))
    3 (by decide)).2

/-- C7. Public output is always `1` on success: every witness returned
successfully by `synthesize` has output signal `ok = 1`, and — since
`ok <== 1` is a constraint — every assignment satisfying the gadget's
constraints assigns `ok` the value `1`. -/
theorem public_output_always_one {F : Type} [Field F] [DecidableEq F]
    (H : F → F) :
    (∀ (r j : F) (hashes : List F) (w : Witness F),
      synthesize H 10 r j hashes = .ok w → w.ok = 1) ∧
    (∀ w : Witness F, HashListCheckConstraints H 10 w → w.ok = 1) := by
  constructor
  · intro r j hashes w h
    simp only [synthesize] at h
    split at h
    · exact Except.noConfusion h
    · split at h
      · exact Except.noConfusion h
      · injection h with h2
        rw [← h2]
        rfl
  · intro w hsat
    exact hsat.2.2.2.2.2.2.2.2

/-- Witness for C7: the witness produced by synthesis on spec
scenario 1 over `ZMod 11` has output `1`. -/
theorem public_output_always_one_witness :
    (synthWitness (F := ZMod 11) (fun x => x * x) 42 ((3 : Nat) : ZMod 11)
      [0, 0, 0, 4, 0, 0, 0, 0, 0, 0]).ok = 1 :=
  (public_output_always_one (fun x => x * x)).1 42 ((3 : Nat) : ZMod 11)
    [0, 0, 0, 4, 0, 0, 0, 0, 0, 0]
    (synthWitness (fun x => x * x) 42 ((3 : Nat) : ZMod 11)
      [0, 0, 0, 4, 0, 0, 0, 0, 0, 0])
    (synthesize_ok (synthSumSel_of_match (by decide) (by decide))
      (by rw [synthSelectedHash_of_match (by decide) (by decide)]; decide))

/-- C8. Shape enforcement: the input builder
`get_input_with_others.js` rejects an others list that does not have
exactly `9` entries with the `ShapeMismatch` error, for every hash
function and secret alike (so before any hash computation), and never
truncates or extends: on success the public list is exactly the `9`
supplied hashes followed by the secret's hash, of length `10`. -/
theorem shape_enforcement {F : Type} [Field F] [DecidableEq F]
    (others : List F) :
    (others.length ≠ 9 → ∀ (H : F → F) (secret : F),
      getInputWithOthers H secret others = .error .ShapeMismatch) ∧
    (others.length = 9 → ∀ (H : F → F) (secret : F),
      getInputWithOthers H secret others =
        .ok { r := secret, j := 9, hashes := others ++ [H secret] } ∧
      (others ++ [H secret]).length = 10) := by
  constructor
  · intro h H secret
    unfold getInputWithOthers
    rw [if_pos h]
  · intro h H secret
    refine ⟨?_, by simp [h]⟩
    unfold getInputWithOthers
    rw [if_neg fun hc => hc h]

/-- Witness for C8: a ten-element others list (so a public list of
eleven entries) is rejected with `ShapeMismatch`. -/
theorem shape_enforcement_witness :
    getInputWithOthers (fun x => x * x) (42 : ZMod 11)
      (List.replicate 10 (0 : ZMod 11)) = .error .ShapeMismatch :=
  (shape_enforcement (List.replicate 10 (0 : ZMod 11))).1
    (by decide) (fun x => x * x) 42

/-- C9. Determinism: two invocations of witness synthesis with
identical inputs (same secret, same index, same public list) produce
identical witnesses; the embedded computation is a pure function of its
inputs. -/
theorem witness_determinism {F : Type} [Field F] [DecidableEq F]
    (H : F → F) (r₁ r₂ j₁ j₂ : F) (l₁ l₂ : List F)
    (hr : r₁ = r₂) (hj : j₁ = j₂) (hl : l₁ = l₂) :
    synthesize H 10 r₁ j₁ l₁ = synthesize H 10 r₂ j₂ l₂ := by
  rw [hr, hj, hl]

/-- Witness for C9 at spec scenario 1 over `ZMod 11`. -/
theorem witness_determinism_witness :
    synthesize (F := ZMod 11) (fun x => x * x) 10 42 3
        [0, 0, 0, 4, 0, 0, 0, 0, 0, 0] =
      synthesize (fun x => x * x) 10 42 3 [0, 0, 0, 4, 0, 0, 0, 0, 0, 0] :=
  witness_determinism (fun x => x * x) 42 42 3 3
    [0, 0, 0, 4, 0, 0, 0, 0, 0, 0] [0, 0, 0, 4, 0, 0, 0, 0, 0, 0]
    rfl rfl rfl

/-- C10. Driver range check: `get_input.js` rejects any index `j` with
`j < 0` or `j > 9` by throwing the error `"j must be 0–9"`, for every
hash function and secret alike — so the rejection happens in the host
language before any hash is computed or witness input built. -/
theorem get_input_range_check {F : Type} [Field F] [DecidableEq F]
    (j : Int) (hj : j < 0 ∨ 9 < j) :
    ∀ (H : F → F) (r : F), getInput H r j = .error "j must be 0–9" := by
  intro H r
  unfold getInput
  rw [if_pos hj]

/-- Witness for C10: the negative index `-1` is rejected. -/
theorem get_input_range_check_witness :
    getInput (F := ZMod 11) (fun x => x * x) 42 (-1) =
      .error "j must be 0–9" :=
  get_input_range_check (-1) (by decide) (fun x => x * x) 42

end HashPreimage
